import Mathlib

/-!
Shallow embedding of src/comm_console.py (class CommConsole).

The widget mediates between a Qt UI, the pyserial transport and a per-port
dictionary of log buffers.  The embedding models the widget state as an
explicit record (CState) and each Python method as a pure state transformer.
External behaviour (the serial library) is a parameter of each operation:
an OpenOutcome for serial.Serial(...), a PollOutcome for in_waiting/read,
and Booleans recording whether an external write()/close() call raises.
Qt signal semantics are embedded where the code relies on them:
QPushButton.setChecked fires the toggled slot only when the checked state
actually changes, and QComboBox emits currentTextChanged only when the
current text actually changes.
-/

set_option linter.unusedVariables false
set_option linter.unreachableTactic false
set_option linter.unusedTactic false

namespace CommConsole

/-- One entry of serial.tools.list_ports.comports(): a device name plus the
hardware-id string the filter scans. -/
structure PortInfo where
  device : String
  hwid : String
deriving DecidableEq, Repr

/-- Python list/str containment helper: does the second list start with the
first one? -/
def beginsWith : List Char → List Char → Bool
  | _, [] => true
  | [], _ :: _ => false
  | a :: s, b :: t => a == b && beginsWith s t

/-- Python `pat in l` substring containment on character lists. -/
def hasSub (pat : List Char) : List Char → Bool
  | [] => pat.isEmpty
  | c :: t => beginsWith (c :: t) pat || hasSub pat t

/-- Embeds CommConsole.find_linux_port._com_num: re.search of COM digits at the
end of name.upper(); names without such a suffix get the sentinel 1000000.
The regex match COM followed by digits running to the end of the string is
equivalently: the maximal digit suffix is nonempty and the text before it ends
in COM.  Python str.upper is modelled by ASCII Char.toUpper (port names are
ASCII). -/
def comNum (name : String) : Nat :=
  let u := name.data.map Char.toUpper
  let digits := (u.reverse.takeWhile Char.isDigit).reverse
  let stem := (u.reverse.dropWhile Char.isDigit).reverse
  if digits ≠ [] ∧ stem.reverse.take 3 = ['M', 'O', 'C'] then
    digits.foldl (fun a c => a * 10 + (c.toNat - 48)) 0
  else 1000000

/-- The embedded numeric suffix of a device name, as characters; written from
the words of the spec sentence about find_port_by_hardware_id, for comparing
the spec's lexicographic pick against the code's numeric pick. -/
def digitSuffix (name : String) : List Char :=
  (name.data.map Char.toUpper).reverse.takeWhile Char.isDigit |>.reverse

/-- Lexicographic strict order on character sequences; written from the spec's
words ("lexicographically-smallest embedded numeric suffix"). -/
def lexLt : List Char → List Char → Bool
  | [], [] => false
  | [], _ :: _ => true
  | _ :: _, [] => false
  | a :: s, b :: t => if a < b then true else if a = b then lexLt s t else false

/-- Python str.strip() (whitespace on both ends, ASCII whitespace modelled). -/
def pyIsSpace (c : Char) : Bool :=
  c == ' ' || c == '\t' || c == '\n' || c == '\x0d' || c == '\x0b' || c == '\x0c'

/-- Python str.strip() on a character list. -/
def pyStrip (l : List Char) : List Char :=
  ((l.dropWhile pyIsSpace).reverse.dropWhile pyIsSpace).reverse

/-- The candidate sublist built by CommConsole.find_linux_port: devices whose
hwid contains the stripped needle (an empty needle matches nothing, because
the code tests `if needle and needle in hwid`). -/
def matchedDevices (ports : List PortInfo) (needle0 : String) : List String :=
  let needle := pyStrip needle0.data
  (ports.filter (fun p => !needle.isEmpty && hasSub needle p.hwid.data)).map
    (fun p => p.device)

/-- Stable insertion into a list already sorted (ascending) by _com_num: the new
element goes before the first element of equal or larger key.  Together with
pySortCom this models Python's stable list.sort(key=_com_num). -/
def insertByCom (a : String) : List String → List String
  | [] => [a]
  | b :: t => if comNum b < comNum a then b :: insertByCom a t else a :: b :: t

/-- Python's list.sort(key=_com_num): a stable ascending sort.  A stable sort
is extensionally unique given the key, so this insertion sort is the same
function as the source's Timsort call. -/
def pySortCom : List String → List String
  | [] => []
  | a :: t => insertByCom a (pySortCom t)

/-- Embeds CommConsole.find_linux_port: filter by hwid containment, then sort
the candidates by _com_num (Python's stable list.sort) and return the first. -/
def find_linux_port (ports : List PortInfo) (needle0 : String) : Option String :=
  let candidates := matchedDevices ports needle0
  if candidates.isEmpty then none
  else some ((pySortCom candidates).headD "")

/-- Python dict lookup with default, d.get(k, dflt), over an insertion-ordered
association list (keys are unique, so first match is the binding). -/
def dictGet : List (String × String) → String → String → String
  | [], _, dflt => dflt
  | (a, b) :: t, k, dflt => if a = k then b else dictGet t k dflt

/-- Python dict key membership. -/
def dictHasKey : List (String × String) → String → Bool
  | [], _ => false
  | (a, _) :: t, k => a = k || dictHasKey t k

/-- Python dict assignment d[k] = v: replace in place, else append. -/
def dictSet : List (String × String) → String → String → List (String × String)
  | [], k, v => [(k, v)]
  | (a, b) :: t, k, v => if a = k then (k, v) :: t else (a, b) :: dictSet t k v

/-- Python dict.setdefault(k, dflt): insert only when the key is absent. -/
def dictSetdefault (m : List (String × String)) (k : String) (dflt : String) :
    List (String × String) :=
  if dictHasKey m k then m else m ++ [(k, dflt)]

/-- The U+FFFD replacement character produced by errors="replace". -/
def repl : Char := Char.ofNat 0xFFFD

/-- One step of the UTF-8 decoder with errors="replace": given the first byte
and the remaining bytes, return the decoded character (or U+FFFD for the
maximal subpart of an ill-formed subsequence) together with the bytes not yet
consumed (CPython resumes at the first non-conforming byte). -/
def utf8Step (b : Nat) (rest : List Nat) : Char × List Nat :=
  if b < 0x80 then (Char.ofNat b, rest)
  else if 0xC2 ≤ b ∧ b ≤ 0xDF then
    match rest with
    | [] => (repl, [])
    | b2 :: r2 =>
      if 0x80 ≤ b2 ∧ b2 ≤ 0xBF then
        (Char.ofNat ((b - 0xC0) * 0x40 + (b2 - 0x80)), r2)
      else (repl, b2 :: r2)
  else if 0xE0 ≤ b ∧ b ≤ 0xEF then
    match rest with
    | [] => (repl, [])
    | b2 :: r2 =>
      if (if b = 0xE0 then 0xA0 else 0x80) ≤ b2 ∧ b2 ≤ (if b = 0xED then 0x9F else 0xBF) then
        match r2 with
        | [] => (repl, [])
        | b3 :: r3 =>
          if 0x80 ≤ b3 ∧ b3 ≤ 0xBF then
            (Char.ofNat ((b - 0xE0) * 0x1000 + (b2 - 0x80) * 0x40 + (b3 - 0x80)), r3)
          else (repl, b3 :: r3)
      else (repl, b2 :: r2)
  else if 0xF0 ≤ b ∧ b ≤ 0xF4 then
    match rest with
    | [] => (repl, [])
    | b2 :: r2 =>
      if (if b = 0xF0 then 0x90 else 0x80) ≤ b2 ∧ b2 ≤ (if b = 0xF4 then 0x8F else 0xBF) then
        match r2 with
        | [] => (repl, [])
        | b3 :: r3 =>
          if 0x80 ≤ b3 ∧ b3 ≤ 0xBF then
            match r3 with
            | [] => (repl, [])
            | b4 :: r4 =>
              if 0x80 ≤ b4 ∧ b4 ≤ 0xBF then
                (Char.ofNat ((b - 0xF0) * 0x40000 + (b2 - 0x80) * 0x1000 +
                    (b3 - 0x80) * 0x40 + (b4 - 0x80)), r4)
              else (repl, b4 :: r4)
          else (repl, b3 :: r3)
      else (repl, b2 :: r2)
  else (repl, rest)

/-- Fuel-driven decode loop; the fuel only bounds recursion depth, each step
consumes at least the first byte so fuel = length of the input suffices. -/
def utf8DecodeGo : Nat → List Nat → List Char
  | _, [] => []
  | 0, _ :: _ => []
  | fuel + 1, b :: rest =>
    let s := utf8Step b rest
    s.1 :: utf8DecodeGo fuel s.2

/-- Embeds bytes.decode(errors="replace") (UTF-8 with replacement).  Total by
construction: malformed input yields replacement characters, never an error. -/
def utf8DecodeReplace (l : List Nat) : List Char :=
  utf8DecodeGo l.length l

theorem utf8Step_len (b : Nat) (rest : List Nat) :
    (utf8Step b rest).2.length ≤ rest.length := by
  rcases rest with _ | ⟨b2, r2⟩
  · simp only [utf8Step]
    split_ifs <;> simp
  · rcases r2 with _ | ⟨b3, r3⟩
    · simp only [utf8Step]
      split_ifs <;> simp
    · rcases r3 with _ | ⟨b4, r4⟩
      · simp only [utf8Step]
        split_ifs <;> simp <;> omega
      · simp only [utf8Step]
        split_ifs <;> simp <;> omega

theorem utf8DecodeGo_fuel (f1 : Nat) : ∀ (f2 : Nat) (l : List Nat), l.length ≤ f1 →
    l.length ≤ f2 → utf8DecodeGo f1 l = utf8DecodeGo f2 l := by
  induction f1 with
  | zero =>
    intro f2 l h1 h2
    rcases l with _ | ⟨b, rest⟩
    · cases f2 <;> rfl
    · exact absurd h1 (by simp)
  | succ g1 ih =>
    intro f2 l h1 h2
    rcases l with _ | ⟨b, rest⟩
    · cases f2 <;> rfl
    · rcases f2 with _ | g2
      · exact absurd h2 (by simp)
      simp only [utf8DecodeGo]
      have hs := utf8Step_len b rest
      have hl1 : rest.length ≤ g1 := by simpa using h1
      have hl2 : rest.length ≤ g2 := by simpa using h2
      rw [ih g2 (utf8Step b rest).2 (le_trans hs hl1) (le_trans hs hl2)]

/-- Unfolding equation for the decoder, in terms of a single step. -/
theorem utf8DecodeReplace_cons (b : Nat) (rest : List Nat) :
    utf8DecodeReplace (b :: rest) =
      (utf8Step b rest).1 :: utf8DecodeReplace (utf8Step b rest).2 := by
  simp only [utf8DecodeReplace, List.length_cons, utf8DecodeGo]
  exact congrArg _ (utf8DecodeGo_fuel rest.length (utf8Step b rest).2.length
    (utf8Step b rest).2 (utf8Step_len b rest) le_rfl)

theorem utf8DecodeReplace_nil : utf8DecodeReplace [] = [] := rfl

/-- The serial.Serial handle held in self._serial, with the constructor
arguments of the open call (port, baudrate, bytesize, parity, stopbits,
rtscts, xonxoff). -/
structure SerialConn where
  port : String
  baudrate : Nat
  bytesize : Nat
  parity : String
  stopbits : String
  rtscts : Bool
  xonxoff : Bool
deriving DecidableEq, Repr

/-- Behaviour of the external serial open in _on_uart_connect_toggle:
serial.Serial(...) succeeds, the import fails (ImportError), or the open
raises (classified by the handler into busy/not-found/other from the
exception kind and message). -/
inductive OpenOutcome
  | success
  | importError
  | openFail (isPerm : Bool) (isFnf : Bool) (msg : String)
deriving DecidableEq, Repr

/-- Behaviour of the external transport during one _poll_uart call:
no bytes waiting, bytes available (the read result), or in_waiting/read
raising with a message. -/
inductive PollOutcome
  | noData
  | available (bytes : List Nat)
  | readError (msg : String)
deriving DecidableEq, Repr

/-- The observable state of the CommConsole widget: the serial handle, the
poll QTimer's running flag, the Connect button (checked state and label), the
port combo (item list and current text), the UART setting combos, the per-port
dict self._port_logs, self._current_port, the log and input widget texts, plus
ghost logs of transport writes, message boxes shown, and completion-callback
invocations. -/
structure CState where
  serial : Option SerialConn
  pollActive : Bool
  connectChecked : Bool
  connectBtnText : String
  portItems : List String
  portSelected : String
  baudText : String
  dataBitsText : String
  parityText : String
  stopText : String
  flowText : String
  port_logs : List (String × String)
  currentPort : String
  logText : String
  inputText : String
  written : List String
  alerts : List String
  completeCount : Nat
deriving DecidableEq, Repr

/-- Embeds CommConsole._on_port_changed: save the visible log text into the
previous port's buffer (skipped when the previous key is the empty string),
then load the buffer of the newly selected port into the log widget. -/
def on_port_changed (st : CState) (port : String) : CState :=
  let prev := st.currentPort
  let logs := if prev ≠ "" then dictSet st.port_logs prev st.logText else st.port_logs
  { st with port_logs := logs, currentPort := port, logText := dictGet logs port "" }

/-- Changing the port combo's current text: Qt emits currentTextChanged (wired
to _on_port_changed) only when the text actually changes. -/
def selectPort (st : CState) (t : String) : CState :=
  if t = st.portSelected then st
  else on_port_changed { st with portSelected := t } t

/-- QComboBox.addItem: appends the item; on a previously empty combo the first
item becomes current, which emits currentTextChanged. -/
def addItem (st : CState) (p : String) : CState :=
  let st1 := { st with portItems := st.portItems ++ [p] }
  if st.portItems.isEmpty then selectPort st1 p else st1

/-- The fixed item list of the baud combo built in _build_ui. -/
def baudItems : List String :=
  ["9600", "19200", "38400", "57600", "115200", "230400", "460800", "921600"]

/-- QComboBox.setCurrentText on the non-editable baud combo: only takes effect
when the text is one of the items. -/
def setBaudText (st : CState) (t : String) : CState :=
  if baudItems.contains t then { st with baudText := t } else st

/-- Decimal value of a digit sequence. -/
def pyDigits (l : List Char) : Nat :=
  l.foldl (fun a c => a * 10 + (c.toNat - 48)) 0

/-- Python int(self.uart_baud.currentText() or 115200).  A non-numeric,
non-empty text would raise ValueError in the source, which the generic except
branch catches; that situation is covered by the openFail outcome, so the
value returned here only matters when the text parses. -/
def baudOf (s : String) : Nat :=
  let t := if s = "" then "115200" else s
  if t.data ≠ [] ∧ t.data.all Char.isDigit then pyDigits t.data else 0

/-- The parity_map lookup with default PARITY_NONE. -/
def parityOf (s : String) : String :=
  if s = "Even" then "E" else if s = "Odd" then "O" else "N"

/-- The stop_map lookup with default STOPBITS_ONE. -/
def stopOf (s : String) : String :=
  if s = "1.5" then "1.5" else if s = "2" then "2" else "1"

/-- Case-insensitive containment msg.lower() used by the open-error
classification. -/
def lowerHas (hay : String) (pat : String) : Bool :=
  hasSub pat.data (hay.data.map Char.toLower)

/-- The message classification of the generic open-failure branch in
_on_uart_connect_toggle: permission/busy errors, missing-device errors, or
the raw message. -/
def classifyOpenFail (port : String) (isPerm : Bool) (isFnf : Bool) (msg : String) : String :=
  if isPerm || lowerHas msg "access is denied" || lowerHas msg "busy" ||
      lowerHas msg "resource busy" then
    "Port " ++ port ++ " is busy or access is denied. Close other apps and try again.\n\nDetails: " ++ msg
  else if isFnf || lowerHas msg "no such file" || lowerHas msg "cannot find the file" then
    "Port " ++ port ++ " was not found. Check the device and try again.\n\nDetails: " ++ msg
  else msg

/-- The pyserial-missing dialog text of the ImportError branch. -/
def importErrorMsg : String :=
  "Serial Module Missing: pyserial is not installed. Install it with:\n\n  python -m pip install pyserial\n\nThen restart the app."

/-- The else branch of _on_uart_connect_toggle (the Disconnect side): stop the
poll timer, then try to close and clear the handle, swallowing any close
error; closeRaises models the external close() raising, in which case the
source's except skips the self._serial = None assignment and the stale handle
stays stored. -/
def toggleOff (st : CState) (closeRaises : Bool) : CState :=
  let st1 := { st with pollActive := false }
  let st2 :=
    match st1.serial with
    | none => st1
    | some _ => if closeRaises then st1 else { st1 with serial := none }
  { st2 with connectBtnText := "Connect" }

/-- QPushButton.setChecked(False): fires the toggled(False) slot only when the
button was checked. -/
def setCheckedFalse (st : CState) (closeRaises : Bool) : CState :=
  if st.connectChecked then toggleOff { st with connectChecked := false } closeRaises else st

/-- The checked branch of _on_uart_connect_toggle: build the serial config
from the combos and open; on success start polling and bind the per-port
buffer; on ImportError or an open failure show the dialog and uncheck the
button (which fires the toggled(False) slot, since the button is checked). -/
def toggleOn (st : CState) (o : OpenOutcome) (closeRaises : Bool) : CState :=
  let port := st.portSelected
  match o with
  | .success =>
    let conn : SerialConn :=
      { port := port
        baudrate := baudOf st.baudText
        bytesize := if st.dataBitsText = "7" then 7 else 8
        parity := parityOf st.parityText
        stopbits := stopOf st.stopText
        rtscts := st.flowText = "RTS/CTS"
        xonxoff := st.flowText = "XON/XOFF" }
    let st1 := { st with serial := some conn, connectBtnText := "Disconnect", pollActive := true }
    let logs := dictSetdefault st1.port_logs port ""
    { st1 with currentPort := port, port_logs := logs, logText := dictGet logs port "" }
  | .importError =>
    let st1 := { st with alerts := st.alerts ++ [importErrorMsg] }
    toggleOff { st1 with connectChecked := false } closeRaises
  | .openFail isPerm isFnf msg =>
    let st1 := { st with alerts :=
      st.alerts ++ ["Open Port Failed: " ++ classifyOpenFail port isPerm isFnf msg] }
    toggleOff { st1 with connectChecked := false } closeRaises

/-- QPushButton.setChecked(True): fires the toggled(True) slot only when the
button was unchecked; when it is already checked nothing happens at all. -/
def setCheckedTrue (st : CState) (o : OpenOutcome) (closeRaises : Bool) : CState :=
  if st.connectChecked then st else toggleOn { st with connectChecked := true } o closeRaises

/-- Embeds CommConsole.connect_to_port: make sure the port is an item of the
combo, select it, set the baud text, check the Connect button, and report
bool(self._serial). -/
def connect_to_port (st : CState) (port : String) (baud : Nat) (o : OpenOutcome)
    (closeRaises : Bool) : CState × Bool :=
  let st1 := if st.portItems.contains port then st else addItem st port
  let idx := (st1.portItems.indexOf? port).getD 0
  let st2 := selectPort st1 (st1.portItems.getD idx "")
  let st3 := setBaudText st2 (toString baud)
  let st4 := setCheckedTrue st3 o closeRaises
  (st4, st4.serial.isSome)

/-- Embeds CommConsole.disconnect_serial / _uart_disconnect_if_needed: uncheck
the Connect button when it is checked. -/
def disconnect_serial (st : CState) (closeRaises : Bool) : CState :=
  setCheckedFalse st closeRaises

/-- The QMessageBox.warning text of the poll error handler. -/
def errAlert (e : String) : String :=
  "Serial port error: " ++ e ++ "\nThe connection has been closed."

/-- Embeds CommConsole._poll_uart: with no handle the guard short-circuits and
nothing happens; with bytes available they are decoded with errors="replace"
and appended to the buffer of the currently selected port and to the log
widget; a transport read error stops the timer, closes best-effort (two
independent close attempts: one here, one in the toggled(False) slot, each of
which may itself raise and be swallowed), shows the warning and unchecks the
Connect button. -/
def poll_uart (st : CState) (o : PollOutcome) (closeRaises1 closeRaises2 : Bool) : CState :=
  match st.serial with
  | none => st
  | some _ =>
    match o with
    | .noData => st
    | .available bs =>
      if bs.isEmpty then st
      else
        let text := String.mk (utf8DecodeReplace bs)
        let port := st.portSelected
        { st with
          port_logs := dictSet st.port_logs port (dictGet st.port_logs port "" ++ text)
          logText := st.logText ++ text }
    | .readError e =>
      let st1 := { st with pollActive := false }
      let st2 :=
        match st1.serial with
        | none => st1
        | some _ => if closeRaises1 then st1 else { st1 with serial := none }
      let st3 := { st2 with alerts := st2.alerts ++ [errAlert e] }
      setCheckedFalse st3 closeRaises2

/-- One firing opportunity of the poll QTimer: _poll_uart runs only while the
timer is started. -/
def pollTick (st : CState) (o : PollOutcome) (closeRaises1 closeRaises2 : Bool) : CState :=
  if st.pollActive then poll_uart st o closeRaises1 closeRaises2 else st

/-- Folds a sequence of scheduled poll opportunities, each with its own
transport behaviour. -/
def pollTicks : CState → List (PollOutcome × Bool × Bool) → CState
  | st, [] => st
  | st, (o, c1, c2) :: rest => pollTicks (pollTick st o c1 c2) rest

/-- Python str.split of a character list at newline characters. -/
def splitNL : List Char → List (List Char)
  | [] => [[]]
  | c :: t =>
    if c = '\n' then [] :: splitNL t
    else
      match splitNL t with
      | [] => [[c]]
      | h :: t2 => (c :: h) :: t2

/-- The message extraction of _on_send:
self.input.toPlainText().rstrip("\x0d\n").split("\n")[-1]. -/
def sendMsgOf (inputText : String) : String :=
  let stripped := (inputText.data.reverse.dropWhile (fun c => c == '\x0d' || c == '\n')).reverse
  String.mk ((splitNL stripped).getLastD [])

/-- Embeds CommConsole._on_send: extract the last line of the input box; an
empty message returns immediately; with no serial handle the guarded body is
skipped entirely (no write, no echo, no exception); otherwise write
msg + newline to the transport, echo msg + newline into the selected port's
buffer, insert a bare newline into the log widget, and clear the input box.
writeErr carries the message of a raising transport write, which the handler
surfaces as a critical dialog. -/
def on_send (st : CState) (writeErr : Option String) : CState :=
  let msg := sendMsgOf st.inputText
  if msg = "" then st
  else
    match st.serial with
    | none => st
    | some _ =>
      match writeErr with
      | some e => { st with alerts := st.alerts ++ ["Serial Error: " ++ e] }
      | none =>
        let port := st.portSelected
        { st with
          written := st.written ++ [msg ++ "\n"]
          port_logs := dictSet st.port_logs port (dictGet st.port_logs port "" ++ msg ++ "\n")
          logText := st.logText ++ "\n"
          inputText := "" }

/-- The timer-driven queue created by CommConsole.send_commands: the remaining
commands, the QTimer interval max(50, spacing_ms), and whether the timer is
still running. -/
structure SendJob where
  queue : List String
  interval : Int
  timerActive : Bool
deriving DecidableEq, Repr

/-- The _flush_next closure of send_commands: with an empty queue stop the
timer and invoke on_complete; otherwise pop the first command and, when a
serial handle exists, write it with a trailing newline and echo it into the
selected port's buffer and the log widget.  A raising transport write
(writeRaises) is swallowed by the bare except: the command stays consumed and
the echo is skipped. -/
def flushNext (st : CState) (job : SendJob) (writeRaises : Bool) : CState × SendJob :=
  match job.queue with
  | [] => ({ st with completeCount := st.completeCount + 1 }, { job with timerActive := false })
  | cmd :: rest =>
    let job1 := { job with queue := rest }
    match st.serial with
    | none => (st, job1)
    | some _ =>
      if writeRaises then (st, job1)
      else
        let port := st.portSelected
        ({ st with
            written := st.written ++ [cmd ++ "\n"]
            port_logs := dictSet st.port_logs port (dictGet st.port_logs port "" ++ cmd ++ "\n")
            logText := st.logText ++ cmd ++ "\n" }, job1)

/-- Embeds CommConsole.send_commands: an empty list invokes on_complete
synchronously and returns without creating a timer; otherwise a timer with
interval max(50, spacing_ms) is started and the first command is flushed
immediately. -/
def send_commands (st : CState) (commands : List String) (spacing_ms : Int)
    (firstWriteRaises : Bool) : CState × Option SendJob :=
  match commands with
  | [] => ({ st with completeCount := st.completeCount + 1 }, none)
  | _ :: _ =>
    let job0 : SendJob := { queue := commands, interval := max 50 spacing_ms, timerActive := true }
    let p := flushNext st job0 firstWriteRaises
    (p.1, some p.2)

/-- One firing opportunity of the send_commands timer: _flush_next runs only
while the timer is started. -/
def tickJob (st : CState) (job : SendJob) (writeRaises : Bool) : CState × SendJob :=
  if job.timerActive then flushNext st job writeRaises else (st, job)

/-- Folds a sequence of send-timer firing opportunities, each with its own
write behaviour. -/
def runTicks : CState → SendJob → List Bool → CState × SendJob
  | st, job, [] => (st, job)
  | st, job, o :: os =>
    let p := tickJob st job o
    runTicks p.1 p.2 os

/-- The buffered text of session key k (Python dict get with default ""). -/
def bufGet (st : CState) (k : String) : String :=
  dictGet st.port_logs k ""

/-- The UI consistency invariant maintained by the widget: self._current_port
tracks the combo's current text, and the log widget shows exactly the stored
buffer of that port. -/
def Inv (st : CState) : Prop :=
  st.currentPort = st.portSelected ∧ st.logText = bufGet st st.portSelected

/-- The spec's Disconnected state: no Connection exists (spec invariant: a
Connection exists iff the manager is connected), the toggle is unchecked and
the poll timer stopped. -/
def Disconnected (st : CState) : Prop :=
  st.serial = none ∧ st.connectChecked = false ∧ st.pollActive = false

/-- A concrete quiescent widget state (as after construction with one
discovered port), used to instantiate theorems with hypotheses. -/
def initState : CState :=
  { serial := none
    pollActive := false
    connectChecked := false
    connectBtnText := "Connect"
    portItems := ["COM1"]
    portSelected := "COM1"
    baudText := "115200"
    dataBitsText := "8"
    parityText := "None"
    stopText := "1"
    flowText := "None"
    port_logs := []
    currentPort := "COM1"
    logText := ""
    inputText := ""
    written := []
    alerts := []
    completeCount := 0 }

/-- A concrete connected state: initState after connect_to_port "COM3" opened
successfully. -/
def connState : CState :=
  (connect_to_port initState "COM3" 115200 .success false).1

/-- The serial handle held by connState. -/
def connConn : SerialConn :=
  { port := "COM3", baudrate := 115200, bytesize := 8, parity := "N", stopbits := "1",
    rtscts := false, xonxoff := false }

/-! Helper lemmas about the dictionary model. -/

theorem dictGet_dictSet_self (m : List (String × String)) (k v d : String) :
    dictGet (dictSet m k v) k d = v := by
  induction m with
  | nil => simp [dictSet, dictGet]
  | cons e t ih =>
    rcases e with ⟨a, b⟩
    by_cases h : a = k
    · simp [dictSet, h, dictGet]
    · simp [dictSet, h, dictGet, ih]

theorem dictGet_dictSet_ne (m : List (String × String)) (k k' v d : String) (h : k' ≠ k) :
    dictGet (dictSet m k v) k' d = dictGet m k' d := by
  induction m with
  | nil => simp [dictSet, dictGet, h, Ne.symm h]
  | cons e t ih =>
    rcases e with ⟨a, b⟩
    by_cases ha : a = k
    · subst ha
      simp [dictSet, dictGet, h, Ne.symm h]
    · by_cases ha' : a = k'
      · simp [dictSet, ha, dictGet, ha', h, Ne.symm h]
      · simp [dictSet, ha, dictGet, ha', h, Ne.symm h, ih]

theorem dictGet_dictSet_same (m : List (String × String)) (k k' d : String) :
    dictGet (dictSet m k (dictGet m k d)) k' d = dictGet m k' d := by
  by_cases h : k' = k
  · subst h; simp [dictGet_dictSet_self]
  · simp [dictGet_dictSet_ne m k k' _ d h]

theorem dictGet_append_single (m : List (String × String)) (k k' : String)
    (h : dictHasKey m k = false) :
    dictGet (m ++ [(k, "")]) k' "" = dictGet m k' "" := by
  induction m with
  | nil =>
    by_cases hk : k = k' <;> simp [dictGet, hk]
  | cons e t ih =>
    rcases e with ⟨a, b⟩
    simp only [dictHasKey, Bool.or_eq_false_iff] at h
    by_cases ha' : a = k'
    · simp [dictGet, ha']
    · simp [dictGet, ha', ih h.2]

/-- dictSetdefault never changes any looked-up value (with default ""). -/
theorem bufGet_dictSetdefault (m : List (String × String)) (k k' : String) :
    dictGet (dictSetdefault m k "") k' "" = dictGet m k' "" := by
  by_cases h : dictHasKey m k
  · simp [dictSetdefault, h]
  · simp only [dictSetdefault, h, if_false]
    exact dictGet_append_single m k k' (by simpa using h)

/-! Helper lemmas about the widget operations. -/

/-- Changing the selected port under the UI invariant: the new port becomes
selected and current, the log widget shows its stored buffer, every buffer's
content is unchanged, and all non-UI fields are untouched. -/
theorem selectPort_spec (st : CState) (t : String) (h : Inv st) :
    (selectPort st t).portSelected = t ∧
    (selectPort st t).currentPort = t ∧
    (selectPort st t).logText = bufGet st t ∧
    (selectPort st t).serial = st.serial ∧
    (selectPort st t).pollActive = st.pollActive ∧
    (selectPort st t).connectChecked = st.connectChecked ∧
    (selectPort st t).written = st.written ∧
    (selectPort st t).alerts = st.alerts ∧
    (∀ k, bufGet (selectPort st t) k = bufGet st k) ∧
    Inv (selectPort st t) := by
  rcases h with ⟨h1, h2⟩
  by_cases ht : t = st.portSelected
  · have hid : selectPort st t = st := by
      simp [selectPort, ht]
    rw [hid]
    subst ht
    exact ⟨rfl, h1, h2, rfl, rfl, rfl, rfl, rfl, fun k => rfl, h1, h2⟩
  · by_cases hp : st.currentPort = ""
    · have hid : selectPort st t =
          { st with
            portSelected := t
            currentPort := t
            logText := dictGet st.port_logs t "" } := by
        simp [selectPort, ht, on_port_changed, hp]
      rw [hid]
      exact ⟨rfl, rfl, rfl, rfl, rfl, rfl, rfl, rfl, fun k => rfl, rfl, rfl⟩
    · have hid : selectPort st t =
          { st with
            portSelected := t
            currentPort := t
            port_logs := dictSet st.port_logs st.currentPort st.logText
            logText := dictGet (dictSet st.port_logs st.currentPort st.logText) t "" } := by
        simp [selectPort, ht, on_port_changed, hp]
      have hkeep : ∀ k, dictGet (dictSet st.port_logs st.currentPort st.logText) k "" =
          dictGet st.port_logs k "" := by
        intro k
        rw [h1, h2]
        exact dictGet_dictSet_same st.port_logs st.portSelected k ""
      rw [hid]
      exact ⟨rfl, rfl, hkeep t, rfl, rfl, rfl, rfl, rfl, hkeep, rfl, rfl⟩

/-- Adding an item to the port combo under the UI invariant: items gain the
new entry at the end and everything the other operations read is unchanged
except possibly the selection (only when the combo was empty). -/
theorem addItem_spec (st : CState) (p : String) (h : Inv st) :
    (addItem st p).portItems = st.portItems ++ [p] ∧
    (addItem st p).serial = st.serial ∧
    (addItem st p).pollActive = st.pollActive ∧
    (addItem st p).connectChecked = st.connectChecked ∧
    (addItem st p).written = st.written ∧
    (addItem st p).alerts = st.alerts ∧
    (∀ k, bufGet (addItem st p) k = bufGet st k) ∧
    Inv (addItem st p) := by
  have hitems : ∀ (st' : CState) (t : String), (selectPort st' t).portItems = st'.portItems := by
    intro st' t
    by_cases hh : t = st'.portSelected <;> simp [selectPort, hh, on_port_changed]
  have hbase : Inv { st with portItems := st.portItems ++ [p] } := h
  by_cases he : st.portItems.isEmpty
  · have hid : addItem st p = selectPort { st with portItems := st.portItems ++ [p] } p := by
      simp [addItem, he]
    rw [hid]
    have hs := selectPort_spec { st with portItems := st.portItems ++ [p] } p hbase
    exact ⟨hitems _ p, hs.2.2.2.1, hs.2.2.2.2.1, hs.2.2.2.2.2.1, hs.2.2.2.2.2.2.1,
      hs.2.2.2.2.2.2.2.1, hs.2.2.2.2.2.2.2.2.1, hs.2.2.2.2.2.2.2.2.2⟩
  · have hid : addItem st p = { st with portItems := st.portItems ++ [p] } := by
      simp [addItem, he]
    rw [hid]
    exact ⟨rfl, rfl, rfl, rfl, rfl, rfl, fun k => rfl, h⟩

/-- A poll that delivers bytes appends their decoding to the selected port's
buffer and to the log widget, and touches nothing else; in particular the
buffer of every other key is untouched, and the invariant is preserved. -/
theorem poll_available_spec (st : CState) (conn : SerialConn) (bs : List Nat)
    (c1 c2 : Bool) (hs : st.serial = some conn) :
    (poll_uart st (.available bs) c1 c2).portSelected = st.portSelected ∧
    (poll_uart st (.available bs) c1 c2).currentPort = st.currentPort ∧
    (poll_uart st (.available bs) c1 c2).serial = st.serial ∧
    (poll_uart st (.available bs) c1 c2).pollActive = st.pollActive ∧
    (poll_uart st (.available bs) c1 c2).connectChecked = st.connectChecked ∧
    (poll_uart st (.available bs) c1 c2).written = st.written ∧
    (poll_uart st (.available bs) c1 c2).alerts = st.alerts ∧
    (poll_uart st (.available bs) c1 c2).logText =
      st.logText ++ String.mk (utf8DecodeReplace bs) ∧
    bufGet (poll_uart st (.available bs) c1 c2) st.portSelected =
      bufGet st st.portSelected ++ String.mk (utf8DecodeReplace bs) ∧
    (∀ k, k ≠ st.portSelected → bufGet (poll_uart st (.available bs) c1 c2) k = bufGet st k) ∧
    (Inv st → Inv (poll_uart st (.available bs) c1 c2)) := by
  have hemp : ∀ s : String, s ++ String.mk [] = s := by
    intro s
    apply String.ext
    simp [String.mk]
  by_cases hb : bs.isEmpty
  · have hbs : bs = [] := by simpa [List.isEmpty_iff] using hb
    subst hbs
    have hid : poll_uart st (.available []) c1 c2 = st := by
      simp [poll_uart, hs]
    rw [hid, utf8DecodeReplace_nil]
    exact ⟨rfl, rfl, rfl, rfl, rfl, rfl, rfl, (hemp _).symm, (hemp _).symm,
      fun k _ => rfl, fun h => h⟩
  · have hbs : bs.isEmpty = false := by simpa using hb
    have hid : poll_uart st (.available bs) c1 c2 =
        { st with
          port_logs := dictSet st.port_logs st.portSelected
            (dictGet st.port_logs st.portSelected "" ++ String.mk (utf8DecodeReplace bs))
          logText := st.logText ++ String.mk (utf8DecodeReplace bs) } := by
      simp [poll_uart, hs, hbs]
    rw [hid]
    refine ⟨rfl, rfl, rfl, rfl, rfl, rfl, rfl, rfl, ?_, ?_, ?_⟩
    · exact dictGet_dictSet_self _ _ _ _
    · intro k hk
      exact dictGet_dictSet_ne _ _ _ _ _ hk
    · rintro ⟨h1, h2⟩
      refine ⟨h1, ?_⟩
      show st.logText ++ String.mk (utf8DecodeReplace bs) =
        dictGet (dictSet st.port_logs st.portSelected
          (dictGet st.port_logs st.portSelected "" ++ String.mk (utf8DecodeReplace bs)))
          st.portSelected ""
      rw [dictGet_dictSet_self]
      exact congrArg (fun s => s ++ String.mk (utf8DecodeReplace bs)) h2

/-! Decoder content lemmas. -/

theorem utf8Step_ascii (b : Nat) (rest : List Nat) (h : b < 0x80) :
    utf8Step b rest = (Char.ofNat b, rest) := by
  simp [utf8Step, h]

theorem utf8Step_ff (rest : List Nat) : utf8Step 0xFF rest = (repl, rest) := by
  simp [utf8Step]

/-- Pure ASCII input decodes to itself, one character per byte. -/
theorem utf8DecodeReplace_ascii (bs : List Nat) (h : ∀ b ∈ bs, b < 0x80) :
    utf8DecodeReplace bs = bs.map Char.ofNat := by
  induction bs with
  | nil => rfl
  | cons b rest ih =>
    rw [utf8DecodeReplace_cons, utf8Step_ascii b rest (h b (by simp))]
    simp only [List.map_cons]
    rw [ih (fun x hx => h x (by simp [hx]))]

/-- An undecodable byte (0xFF is ill-formed in every UTF-8 position) becomes
one replacement character while the decodable bytes around it are preserved. -/
theorem utf8DecodeReplace_ascii_ff (xs ys : List Nat) (hx : ∀ b ∈ xs, b < 0x80)
    (hy : ∀ b ∈ ys, b < 0x80) :
    utf8DecodeReplace (xs ++ 0xFF :: ys) =
      xs.map Char.ofNat ++ repl :: ys.map Char.ofNat := by
  induction xs with
  | nil =>
    rw [List.nil_append, utf8DecodeReplace_cons, utf8Step_ff]
    simp only [List.map_nil, List.nil_append]
    rw [utf8DecodeReplace_ascii ys hy]
  | cons b t ih =>
    rw [List.cons_append, utf8DecodeReplace_cons,
      utf8Step_ascii b (t ++ 0xFF :: ys) (hx b (by simp))]
    simp only [List.map_cons, List.cons_append]
    rw [ih (fun x hxx => hx x (by simp [hxx]))]

/-! Sort lemmas for find_linux_port. -/

theorem insertByCom_ne_nil (a : String) (l : List String) : insertByCom a l ≠ [] := by
  cases l with
  | nil => simp [insertByCom]
  | cons b t =>
    by_cases h : comNum b < comNum a <;> simp [insertByCom, h]

theorem pySortCom_eq_nil_iff (l : List String) : pySortCom l = [] ↔ l = [] := by
  cases l with
  | nil => simp [pySortCom]
  | cons a t => simp [pySortCom, insertByCom_ne_nil]

theorem mem_insertByCom (y a : String) (l : List String) :
    y ∈ insertByCom a l ↔ y = a ∨ y ∈ l := by
  induction l with
  | nil => simp [insertByCom]
  | cons b t ih =>
    by_cases h : comNum b < comNum a
    · simp [insertByCom, h, ih]
      tauto
    · simp [insertByCom, h]

theorem mem_pySortCom (y : String) (l : List String) : y ∈ pySortCom l ↔ y ∈ l := by
  induction l with
  | nil => simp [pySortCom]
  | cons a t ih => simp [pySortCom, mem_insertByCom, ih]

theorem insertByCom_headD (a d : String) (l : List String) :
    (insertByCom a l).headD d =
      if l ≠ [] ∧ comNum (l.headD d) < comNum a then l.headD d else a := by
  cases l with
  | nil => simp [insertByCom]
  | cons b t =>
    by_cases h : comNum b < comNum a <;> simp [insertByCom, h]

/-- The head of the sorted candidate list has a minimal _com_num key. -/
theorem pySortCom_headD_min (l : List String) (x : String) (hx : x ∈ l) :
    comNum ((pySortCom l).headD "") ≤ comNum x := by
  induction l with
  | nil => simp at hx
  | cons a t ih =>
    simp only [pySortCom, insertByCom_headD]
    by_cases hc : pySortCom t ≠ [] ∧ comNum ((pySortCom t).headD "") < comNum a
    · rw [if_pos hc]
      rcases List.mem_cons.1 hx with h | h
      · subst h; exact le_of_lt hc.2
      · exact ih h
    · rw [if_neg hc]
      rcases List.mem_cons.1 hx with h | h
      · subst h
        exact le_rfl
      · have ht : t ≠ [] := fun hh => by simp [hh] at h
        have hsort : pySortCom t ≠ [] := (pySortCom_eq_nil_iff t).not.2 ht
        have : ¬ comNum ((pySortCom t).headD "") < comNum a := by tauto
        exact le_trans (not_lt.1 this) (ih h)

/-- The head of the sorted candidate list is one of the candidates. -/
theorem pySortCom_headD_mem (l : List String) (h : l ≠ []) :
    (pySortCom l).headD "" ∈ l := by
  induction l with
  | nil => exact absurd rfl h
  | cons a t ih =>
    simp only [pySortCom, insertByCom_headD]
    by_cases hc : pySortCom t ≠ [] ∧ comNum ((pySortCom t).headD "") < comNum a
    · rw [if_pos hc]
      have ht : t ≠ [] := fun hh => hc.1 (by simp [hh, pySortCom])
      exact List.mem_cons.2 (Or.inr (ih ht))
    · rw [if_neg hc]
      exact List.mem_cons.2 (Or.inl rfl)


/-! Lifecycle lemmas for the connect/poll/close state machine. -/

/-- The reachable checked/polling/handle configurations: connected (button
checked, timer running, handle held) or disconnected. -/
def ConnOk (st : CState) : Prop :=
  (st.connectChecked = true ∧ st.pollActive = true ∧ st.serial.isSome = true) ∨
  (st.connectChecked = false ∧ st.pollActive = false ∧ st.serial = none)

/-- Checking the Connect button from the unchecked state with a successful
open, written out as one record update. -/
theorem setCheckedTrue_success (st : CState) (cb : Bool) (h : st.connectChecked = false) :
    setCheckedTrue st .success cb =
      { st with
        connectChecked := true
        serial := some
          { port := st.portSelected
            baudrate := baudOf st.baudText
            bytesize := if st.dataBitsText = "7" then 7 else 8
            parity := parityOf st.parityText
            stopbits := stopOf st.stopText
            rtscts := st.flowText = "RTS/CTS"
            xonxoff := st.flowText = "XON/XOFF" }
        connectBtnText := "Disconnect"
        pollActive := true
        currentPort := st.portSelected
        port_logs := dictSetdefault st.port_logs st.portSelected ""
        logText := dictGet (dictSetdefault st.port_logs st.portSelected "") st.portSelected "" } := by
  simp [setCheckedTrue, h, toggleOn]

/-- The read-error branch of _poll_uart, written out as one record update: the
timer stops, the warning with the error detail is appended, the button is
unchecked, and the handle survives exactly when both best-effort close
attempts raise. -/
theorem poll_readError_spec (st : CState) (conn : SerialConn) (e : String) (c1 c2 : Bool)
    (hs : st.serial = some conn) (hc : st.connectChecked = true) :
    poll_uart st (.readError e) c1 c2 =
      { st with
        pollActive := false
        serial := if c1 && c2 then some conn else none
        alerts := st.alerts ++ [errAlert e]
        connectChecked := false
        connectBtnText := "Connect" } := by
  cases c1 <;> cases c2 <;>
    simp [poll_uart, hs, setCheckedFalse, hc, toggleOff]

/-- A scheduled poll opportunity whose close attempt (if any) succeeds keeps
the state machine in a reachable configuration. -/
theorem pollTick_connOk (st : CState) (o : PollOutcome) (c2 : Bool)
    (h : ConnOk st) : ConnOk (pollTick st o false c2) := by
  rcases h with ⟨hc, hp, hs⟩ | ⟨hc, hp, hs⟩
  · rcases Option.isSome_iff_exists.1 hs with ⟨conn, hconn⟩
    rw [pollTick, if_pos hp]
    cases o with
    | noData =>
      simp only [poll_uart, hconn]
      exact Or.inl ⟨hc, hp, hs⟩
    | available bs =>
      have hspec := poll_available_spec st conn bs false c2 hconn
      exact Or.inl ⟨hspec.2.2.2.2.1.trans hc, hspec.2.2.2.1.trans hp,
        by rw [hspec.2.2.1, hconn]; rfl⟩
    | readError e =>
      rw [poll_readError_spec st conn e false c2 hconn hc]
      exact Or.inr ⟨rfl, rfl, rfl⟩
  · rw [pollTick, hp, if_neg (by simp)]
    exact Or.inr ⟨hc, hp, hs⟩

/-- Folding scheduled polls whose close attempts succeed preserves the
reachable configurations. -/
theorem pollTicks_connOk (steps : List (PollOutcome × Bool × Bool)) (st : CState)
    (h : ConnOk st) (hf : ∀ s ∈ steps, s.2.1 = false) :
    ConnOk (pollTicks st steps) := by
  induction steps generalizing st with
  | nil => exact h
  | cons s rest ih =>
    rcases s with ⟨o, c1, c2⟩
    have hc1 : c1 = false := hf (o, c1, c2) (by simp)
    subst hc1
    exact ih (pollTick st o false c2) (pollTick_connOk st o c2 h)
      (fun s hs => hf s (by simp [hs]))

/-- Closing from a reachable configuration with a succeeding transport close
reaches the Disconnected state. -/
theorem close_disconnected (st : CState) (h : ConnOk st) :
    Disconnected (disconnect_serial st false) := by
  rcases h with ⟨hc, hp, hs⟩ | ⟨hc, hp, hs⟩
  · rcases Option.isSome_iff_exists.1 hs with ⟨conn, hconn⟩
    simp [disconnect_serial, setCheckedFalse, hc, toggleOff, hconn, Disconnected]
  · simp [disconnect_serial, setCheckedFalse, hc, Disconnected, hs, hp]

/-- A scheduled poll in the Disconnected state is a complete no-op. -/
theorem disconnected_pollTick_noop (st : CState) (h : st.pollActive = false)
    (o : PollOutcome) (c1 c2 : Bool) : pollTick st o c1 c2 = st := by
  simp [pollTick, h]

/-- Closing while the button is already unchecked is a complete no-op. -/
theorem unchecked_close_noop (st : CState) (h : st.connectChecked = false) (cb : Bool) :
    disconnect_serial st cb = st := by
  simp [disconnect_serial, setCheckedFalse, h]

/-! Run lemmas for send_commands. -/

/-- The transport writes produced by flushing a queue against a sequence of
per-tick write outcomes (true = the write raises and is swallowed). -/
def sentOf : List String → List Bool → List String
  | [], _ => []
  | _ :: _, [] => []
  | c :: q, o :: os => if o then sentOf q os else (c ++ "\n") :: sentOf q os

theorem sentOf_all_ok (q : List String) (os : List Bool) (h : ∀ o ∈ os, o = false)
    (hl : q.length ≤ os.length) : sentOf q os = q.map (fun c => c ++ "\n") := by
  induction q generalizing os with
  | nil => simp [sentOf]
  | cons c t ih =>
    rcases os with _ | ⟨o, os'⟩
    · simp at hl
    · have ho : o = false := h o (by simp)
      subst ho
      have := ih os' (fun x hx => h x (by simp [hx])) (by simpa using hl)
      simp [sentOf, this]

/-- Running the send timer for one tick more than the queue length: every
command is consumed in order, the successful writes reach the transport, no
dialog is shown, and on the final tick the timer stops and on_complete fires
exactly once. -/
theorem runTicks_spec (q : List String) (outs : List Bool) (st : CState) (job : SendJob)
    (conn : SerialConn) (hs : st.serial = some conn) (hq : job.queue = q)
    (ha : job.timerActive = true) (hl : outs.length = q.length + 1) :
    (runTicks st job outs).1.completeCount = st.completeCount + 1 ∧
    (runTicks st job outs).1.written = st.written ++ sentOf q outs ∧
    (runTicks st job outs).1.alerts = st.alerts ∧
    (runTicks st job outs).1.serial = st.serial ∧
    (runTicks st job outs).2.queue = [] ∧
    (runTicks st job outs).2.timerActive = false ∧
    (runTicks st job outs).2.interval = job.interval := by
  induction q generalizing st job outs with
  | nil =>
    rcases outs with _ | ⟨o, os⟩
    · simp at hl
    · have hos : os = [] := by simpa using hl
      subst hos
      simp [runTicks, tickJob, ha, flushNext, hq, sentOf]
  | cons c q' ih =>
    rcases outs with _ | ⟨o, os⟩
    · simp at hl
    · have hos : os.length = q'.length + 1 := by simpa using hl
      have hflush : tickJob st job o = flushNext st job o := by
        simp [tickJob, ha]
      cases o with
      | true =>
        have hid : flushNext st job true = (st, { job with queue := q' }) := by
          simp [flushNext, hq, hs]
        have hrun : runTicks st job (true :: os) =
            runTicks st { job with queue := q' } os := by
          simp only [runTicks, hflush, hid]
        rw [hrun]
        have := ih os st { job with queue := q' } hs rfl ha hos
        simpa [sentOf] using this
      | false =>
        have hid : flushNext st job false =
            ({ st with
                written := st.written ++ [c ++ "\n"]
                port_logs := dictSet st.port_logs st.portSelected
                  (dictGet st.port_logs st.portSelected "" ++ c ++ "\n")
                logText := st.logText ++ c ++ "\n" },
              { job with queue := q' }) := by
          simp [flushNext, hq, hs]
        have hrun : runTicks st job (false :: os) =
            runTicks
              { st with
                written := st.written ++ [c ++ "\n"]
                port_logs := dictSet st.port_logs st.portSelected
                  (dictGet st.port_logs st.portSelected "" ++ c ++ "\n")
                logText := st.logText ++ c ++ "\n" }
              { job with queue := q' } os := by
          simp only [runTicks, hflush, hid]
        rw [hrun]
        have hthis := ih os
          { st with
            written := st.written ++ [c ++ "\n"]
            port_logs := dictSet st.port_logs st.portSelected
              (dictGet st.port_logs st.portSelected "" ++ c ++ "\n")
            logText := st.logText ++ c ++ "\n" }
          { job with queue := q' } hs rfl ha hos
        refine ⟨hthis.1, ?_, hthis.2.2.1, hthis.2.2.2.1, hthis.2.2.2.2.1,
          hthis.2.2.2.2.2.1, hthis.2.2.2.2.2.2⟩
        rw [hthis.2.1]
        show (st.written ++ [c ++ "\n"]) ++ sentOf q' os =
          st.written ++ sentOf (c :: q') (false :: os)
        simp [sentOf, List.append_assoc]

/-- Once the send timer has stopped, further scheduled ticks change nothing:
in particular on_complete cannot fire a second time. -/
theorem runTicks_inactive (st : CState) (job : SendJob) (outs : List Bool)
    (h : job.timerActive = false) : runTicks st job outs = (st, job) := by
  induction outs with
  | nil => rfl
  | cons o os ih => simp [runTicks, tickJob, h, ih]



/-! Claim theorems. -/

/-- C1 counterexample: in the connected state connState (serial open on
"COM3"), connect_to_port "COM4" does not fail with AlreadyConnected: it
returns True (success), and it switches the selected port (the key that
receives subsequent data) to "COM4" while the serial handle stays bound to
"COM3". -/
theorem C1_counterexample :
    (connect_to_port connState "COM4" 115200 .success false).2 = true ∧
    (connect_to_port connState "COM4" 115200 .success false).1.serial = some connConn ∧
    (connect_to_port connState "COM4" 115200 .success false).1.portSelected = "COM4" ∧
    connState.serial = some connConn ∧ connConn.port = "COM3" := by
  exact ⟨by decide, by decide, by decide, by decide, by decide⟩

/-- C1 amended: while a connection is already open, connect_to_port performs
no new open (the toggle is already checked so the handler never fires), the
existing serial connection and every stored buffer content stay unchanged and
nothing is written, but the call reports success (True) instead of an
AlreadyConnected error. -/
theorem C1_amended (st : CState) (conn : SerialConn) (port : String) (baud : Nat)
    (o : OpenOutcome) (cb : Bool) (hInv : Inv st) (hs : st.serial = some conn)
    (hc : st.connectChecked = true) :
    (connect_to_port st port baud o cb).2 = true ∧
    (connect_to_port st port baud o cb).1.serial = some conn ∧
    (∀ k, bufGet (connect_to_port st port baud o cb).1 k = bufGet st k) ∧
    (connect_to_port st port baud o cb).1.written = st.written := by
  obtain ⟨hInv1, hser1, hchk1, hwr1, hbuf1⟩ :
      Inv (if st.portItems.contains port then st else addItem st port) ∧
      (if st.portItems.contains port then st else addItem st port).serial = some conn ∧
      (if st.portItems.contains port then st else addItem st port).connectChecked = true ∧
      (if st.portItems.contains port then st else addItem st port).written = st.written ∧
      (∀ k, bufGet (if st.portItems.contains port then st else addItem st port) k =
        bufGet st k) := by
    by_cases hmem : st.portItems.contains port
    · rw [if_pos hmem]
      exact ⟨hInv, hs, hc, rfl, fun k => rfl⟩
    · rw [if_neg hmem]
      have ha := addItem_spec st port hInv
      exact ⟨ha.2.2.2.2.2.2.2, ha.2.1.trans hs, ha.2.2.2.1.trans hc, ha.2.2.2.2.1,
        ha.2.2.2.2.2.2.1⟩
  set s1 := if st.portItems.contains port then st else addItem st port with hs1
  set t2 := s1.portItems.getD ((s1.portItems.indexOf? port).getD 0) "" with ht2
  have hsel := selectPort_spec s1 t2 hInv1
  set s2 := selectPort s1 t2 with hs2
  have hInv2 : Inv s2 := hsel.2.2.2.2.2.2.2.2.2
  have hbt : Inv (setBaudText s2 (toString baud)) ∧
      (setBaudText s2 (toString baud)).serial = s2.serial ∧
      (setBaudText s2 (toString baud)).connectChecked = s2.connectChecked ∧
      (setBaudText s2 (toString baud)).written = s2.written ∧
      (∀ k, bufGet (setBaudText s2 (toString baud)) k = bufGet s2 k) := by
    by_cases hb : baudItems.contains (toString baud)
    · rw [setBaudText, if_pos hb]
      exact ⟨hInv2, rfl, rfl, rfl, fun k => rfl⟩
    · rw [setBaudText, if_neg hb]
      exact ⟨hInv2, rfl, rfl, rfl, fun k => rfl⟩
  set s3 := setBaudText s2 (toString baud) with hs3def
  have hchk3 : s3.connectChecked = true :=
    hbt.2.2.1.trans (hsel.2.2.2.2.2.1.trans hchk1)
  have hser3 : s3.serial = some conn := hbt.2.1.trans (hsel.2.2.2.1.trans hser1)
  have hid4 : setCheckedTrue s3 o cb = s3 := by
    simp [setCheckedTrue, hchk3]
  have hre : connect_to_port st port baud o cb =
      (setCheckedTrue s3 o cb, (setCheckedTrue s3 o cb).serial.isSome) := rfl
  rw [hre, hid4]
  refine ⟨?_, hser3, ?_, ?_⟩
  · rw [hser3]; rfl
  · intro k
    rw [hbt.2.2.2.2 k, hsel.2.2.2.2.2.2.2.2.1 k, hbuf1 k]
  · rw [hbt.2.2.2.1, hsel.2.2.2.2.2.2.1, hwr1]

/-- C1 witness: the amended theorem applied at the concrete connected state. -/
theorem C1_witness :
    Inv connState ∧ connState.serial = some connConn ∧ connState.connectChecked = true ∧
    (connect_to_port connState "COM4" 9600 .success false).2 = true ∧
    (connect_to_port connState "COM4" 9600 .success false).1.serial = some connConn ∧
    bufGet (connect_to_port connState "COM4" 9600 .success false).1 "COM3" =
      bufGet connState "COM3" := by
  have h := C1_amended connState connConn "COM4" 9600 .success false ⟨rfl, rfl⟩ rfl rfl
  exact ⟨⟨rfl, rfl⟩, rfl, rfl, h.1, h.2.1, h.2.2.1 "COM3"⟩

/-- C2 counterexample: both COM10 and COM9 match the needle; the code returns
COM9 (numerically smallest COM number), but the lexicographically smallest
embedded numeric suffix among the matches is "10" (of COM10), since
"10" < "9" lexicographically. -/
theorem C2_counterexample :
    find_linux_port
      [⟨"COM10", "USB VID:PID=067B:23A3"⟩, ⟨"COM9", "USB VID:PID=067B:23A3"⟩]
      "VID:PID=067B:23A3" = some "COM9" ∧
    "COM10" ∈ matchedDevices
      [⟨"COM10", "USB VID:PID=067B:23A3"⟩, ⟨"COM9", "USB VID:PID=067B:23A3"⟩]
      "VID:PID=067B:23A3" ∧
    lexLt (digitSuffix "COM10") (digitSuffix "COM9") = true := by
  exact ⟨by decide, by decide, by decide⟩

/-- C2 amended: find_linux_port returns none exactly when no (stripped,
non-empty) needle occurs in any hardware id, and otherwise returns a matching
device whose _com_num key (the numeric value of a trailing COM number,
1000000 for names without one) is minimal among all matches. -/
theorem C2_amended (ports : List PortInfo) (needle0 : String) :
    (matchedDevices ports needle0 = [] → find_linux_port ports needle0 = none) ∧
    (∀ d, find_linux_port ports needle0 = some d →
      d ∈ matchedDevices ports needle0 ∧
      ∀ c ∈ matchedDevices ports needle0, comNum d ≤ comNum c) := by
  constructor
  · intro h
    simp [find_linux_port, h]
  · intro d hd
    by_cases h : (matchedDevices ports needle0).isEmpty
    · rw [find_linux_port] at hd
      simp only [h, if_true] at hd
      cases hd
    · have hne : matchedDevices ports needle0 ≠ [] := by
        simpa [List.isEmpty_iff] using h
      have hb : (matchedDevices ports needle0).isEmpty = false := by
        simpa using h
      rw [find_linux_port] at hd
      simp only [hb, Bool.false_eq_true, if_false, Option.some.injEq] at hd
      rw [← hd]
      exact ⟨pySortCom_headD_mem _ hne, fun c hc => pySortCom_headD_min _ c hc⟩

/-- C2 witness: the amended theorem applied at a concrete matching list. -/
theorem C2_witness :
    find_linux_port [⟨"COM12", "USB VID:PID=1234:5678"⟩, ⟨"COM7", "USB VID:PID=1234:5678"⟩]
      "VID:PID=1234:5678" = some "COM7" ∧
    "COM7" ∈ matchedDevices
      [⟨"COM12", "USB VID:PID=1234:5678"⟩, ⟨"COM7", "USB VID:PID=1234:5678"⟩]
      "VID:PID=1234:5678" ∧
    comNum "COM7" ≤ comNum "COM12" := by
  have h := (C2_amended
    [⟨"COM12", "USB VID:PID=1234:5678"⟩, ⟨"COM7", "USB VID:PID=1234:5678"⟩]
    "VID:PID=1234:5678").2 "COM7" (by decide)
  exact ⟨by decide, h.1, h.2 "COM12" (by decide)⟩

/-- C3: data appended by a poll mutates only the currently selected (active)
session's buffer, never an inactive key's buffer; and in the
set_active(k1) / poll / set_active(k2) / set_active(k1) scenario the final
switch back to k1 shows exactly the text accumulated for k1. -/
theorem C3_buffer_isolation :
    (∀ (st : CState) (bs : List Nat) (c1 c2 : Bool) (k : String), k ≠ st.portSelected →
      bufGet (poll_uart st (.available bs) c1 c2) k = bufGet st k) ∧
    (∀ (st : CState) (conn : SerialConn) (d : List Nat) (c1 c2 : Bool) (k1 k2 : String),
      Inv st → st.serial = some conn → k1 ≠ k2 →
      (selectPort (selectPort (poll_uart (selectPort st k1) (.available d) c1 c2) k2)
          k1).logText =
        (selectPort st k1).logText ++ String.mk (utf8DecodeReplace d)) := by
  constructor
  · intro st bs c1 c2 k hk
    cases hs : st.serial with
    | none => simp [poll_uart, hs, bufGet]
    | some conn => exact (poll_available_spec st conn bs c1 c2 hs).2.2.2.2.2.2.2.2.2.1 k hk
  · intro st conn d c1 c2 k1 k2 hInv hs hk
    have h1 := selectPort_spec st k1 hInv
    have hInv1 : Inv (selectPort st k1) := h1.2.2.2.2.2.2.2.2.2
    have hs1 : (selectPort st k1).serial = some conn := h1.2.2.2.1.trans hs
    have h2 := poll_available_spec (selectPort st k1) conn d c1 c2 hs1
    have hInv2 := h2.2.2.2.2.2.2.2.2.2.2 hInv1
    have h3 := selectPort_spec (poll_uart (selectPort st k1) (.available d) c1 c2) k2 hInv2
    have hInv3 := h3.2.2.2.2.2.2.2.2.2
    have h4 := selectPort_spec
      (selectPort (poll_uart (selectPort st k1) (.available d) c1 c2) k2) k1 hInv3
    rw [h4.2.2.1, h3.2.2.2.2.2.2.2.2.1 k1]
    have hps : (selectPort st k1).portSelected = k1 := h1.1
    have h9 := h2.2.2.2.2.2.2.2.2.1
    rw [hps] at h9
    rw [h9]
    have hbuf1 : bufGet (selectPort st k1) k1 = bufGet st k1 :=
      h1.2.2.2.2.2.2.2.2.1 k1
    rw [hbuf1, ← h1.2.2.1]

/-- C3 witness: the scenario theorem applied at the concrete connected state
with keys "A" and "B" and one ASCII byte of data. -/
theorem C3_witness :
    Inv connState ∧ connState.serial = some connConn ∧ ("A" : String) ≠ "B" ∧
    (selectPort (selectPort (poll_uart (selectPort connState "A") (.available [65])
        false false) "B") "A").logText =
      (selectPort connState "A").logText ++ String.mk (utf8DecodeReplace [65]) := by
  have h := C3_buffer_isolation.2 connState connConn [65] false false "A" "B"
    ⟨rfl, rfl⟩ rfl (by decide)
  exact ⟨⟨rfl, rfl⟩, rfl, by decide, h⟩



/-- C4 counterexample: closing from the connected state while the transport
close() raises leaves the stale serial handle stored (the except skips the
self._serial = None assignment), so the manager is not in the Disconnected
state of the spec (a Connection exists although the toggle is reset). -/
theorem C4_counterexample :
    (disconnect_serial connState true).serial = some connConn ∧
    (disconnect_serial connState true).pollActive = false ∧
    (disconnect_serial connState true).connectChecked = false ∧
    ¬ Disconnected (disconnect_serial connState true) := by
  refine ⟨by decide, by decide, by decide, fun h => ?_⟩
  have hser : (disconnect_serial connState true).serial = some connConn := by decide
  rw [h.1] at hser
  cases hser

/-- C4 amended: for every open → polls → close sequence in which the
transport close attempts do not raise, the state after close is Disconnected;
a subsequent scheduled poll changes nothing at all and a second close (with
any close behaviour) is also a complete no-op.  When a close raises, the
error is swallowed, polling stops and the toggle resets, but the stale serial
handle remains stored. -/
theorem C4_amended (st : CState) (steps : List (PollOutcome × Bool × Bool))
    (h : Disconnected st) (hf : ∀ s ∈ steps, s.2.1 = false) :
    Disconnected
      (disconnect_serial (pollTicks (setCheckedTrue st .success false) steps) false) ∧
    (∀ o c1 c2, pollTick
        (disconnect_serial (pollTicks (setCheckedTrue st .success false) steps) false)
        o c1 c2 =
      disconnect_serial (pollTicks (setCheckedTrue st .success false) steps) false) ∧
    (∀ cb, disconnect_serial
        (disconnect_serial (pollTicks (setCheckedTrue st .success false) steps) false) cb =
      disconnect_serial (pollTicks (setCheckedTrue st .success false) steps) false) := by
  have hopen : ConnOk (setCheckedTrue st .success false) := by
    rw [setCheckedTrue_success st false h.2.1]
    exact Or.inl ⟨rfl, rfl, rfl⟩
  have hpoll := pollTicks_connOk steps _ hopen hf
  have hclose := close_disconnected _ hpoll
  exact ⟨hclose, fun o c1 c2 => disconnected_pollTick_noop _ hclose.2.2 o c1 c2,
    fun cb => unchecked_close_noop _ hclose.2.1 cb⟩

/-- C4 witness: the amended theorem applied at the quiescent initial state
with one data-delivering poll in between. -/
theorem C4_witness :
    Disconnected initState ∧
    Disconnected (disconnect_serial
      (pollTicks (setCheckedTrue initState .success false)
        [(.available [79, 75], false, false)]) false) ∧
    pollTick (disconnect_serial
        (pollTicks (setCheckedTrue initState .success false)
          [(.available [79, 75], false, false)]) false)
      (.available [88]) false false =
      disconnect_serial
        (pollTicks (setCheckedTrue initState .success false)
          [(.available [79, 75], false, false)]) false := by
  have h := C4_amended initState [(.available [79, 75], false, false)]
    ⟨rfl, rfl, rfl⟩ (by decide)
  exact ⟨⟨rfl, rfl, rfl⟩, h.1, h.2.1 (.available [88]) false false⟩

/-- C5 counterexample: a read error during poll while both best-effort close
attempts raise leaves the stale handle stored, so the manager does not reach
the Disconnected state (the spec ties Disconnected to no Connection existing),
although polling stops, the toggle resets and the warning is surfaced. -/
theorem C5_counterexample :
    (poll_uart connState (.readError "boom") true true).serial = some connConn ∧
    (poll_uart connState (.readError "boom") true true).pollActive = false ∧
    (poll_uart connState (.readError "boom") true true).connectChecked = false ∧
    (poll_uart connState (.readError "boom") true true).alerts = [errAlert "boom"] ∧
    ¬ Disconnected (poll_uart connState (.readError "boom") true true) := by
  refine ⟨by decide, by decide, by decide, by decide, fun h => ?_⟩
  have hser : (poll_uart connState (.readError "boom") true true).serial = some connConn := by
    decide
  rw [h.1] at hser
  cases hser

/-- C5 amended: on a transport read error the poll handler stops the timer,
unchecks the toggle, surfaces the warning carrying the error detail, leaves
every buffer, the write log and the completion counter untouched, and
releases the serial handle provided at least one of the two best-effort close
attempts does not raise (each close error itself is swallowed, never
propagated to the caller). -/
theorem C5_amended (st : CState) (conn : SerialConn) (e : String) (c1 c2 : Bool)
    (hs : st.serial = some conn) (hc : st.connectChecked = true) :
    (poll_uart st (.readError e) c1 c2).pollActive = false ∧
    (poll_uart st (.readError e) c1 c2).connectChecked = false ∧
    (poll_uart st (.readError e) c1 c2).connectBtnText = "Connect" ∧
    (poll_uart st (.readError e) c1 c2).alerts = st.alerts ++ [errAlert e] ∧
    ((c1 = false ∨ c2 = false) → (poll_uart st (.readError e) c1 c2).serial = none) ∧
    (∀ k, bufGet (poll_uart st (.readError e) c1 c2) k = bufGet st k) ∧
    (poll_uart st (.readError e) c1 c2).written = st.written ∧
    (poll_uart st (.readError e) c1 c2).completeCount = st.completeCount := by
  rw [poll_readError_spec st conn e c1 c2 hs hc]
  refine ⟨rfl, rfl, rfl, rfl, ?_, fun k => rfl, rfl, rfl⟩
  rintro (h | h) <;> subst h <;> simp

/-- C5 witness: the amended theorem applied at the concrete connected state
with a close that succeeds. -/
theorem C5_witness :
    connState.serial = some connConn ∧ connState.connectChecked = true ∧
    (poll_uart connState (.readError "io fail") false false).pollActive = false ∧
    (poll_uart connState (.readError "io fail") false false).serial = none ∧
    (poll_uart connState (.readError "io fail") false false).alerts =
      connState.alerts ++ [errAlert "io fail"] := by
  have h := C5_amended connState connConn "io fail" false false rfl rfl
  exact ⟨rfl, rfl, h.1, h.2.2.2.2.1 (Or.inl rfl), h.2.2.2.1⟩

/-- C6: decoding during poll never fails (the decoder is a total function):
the decoded text of whatever bytes arrive is appended to the active buffer
and the log; pure ASCII data decodes to itself; and an undecodable byte in
the middle becomes one U+FFFD replacement character while the decodable parts
around it are still decoded and appended. -/
theorem C6_decode_replace :
    (∀ (st : CState) (conn : SerialConn) (bs : List Nat) (c1 c2 : Bool),
      st.serial = some conn →
      bufGet (poll_uart st (.available bs) c1 c2) st.portSelected =
        bufGet st st.portSelected ++ String.mk (utf8DecodeReplace bs) ∧
      (poll_uart st (.available bs) c1 c2).logText =
        st.logText ++ String.mk (utf8DecodeReplace bs)) ∧
    (∀ bs, (∀ b ∈ bs, b < 0x80) → utf8DecodeReplace bs = bs.map Char.ofNat) ∧
    (∀ xs ys, (∀ b ∈ xs, b < 0x80) → (∀ b ∈ ys, b < 0x80) →
      utf8DecodeReplace (xs ++ 0xFF :: ys) =
        xs.map Char.ofNat ++ repl :: ys.map Char.ofNat) := by
  refine ⟨?_, utf8DecodeReplace_ascii, utf8DecodeReplace_ascii_ff⟩
  intro st conn bs c1 c2 hs
  have h := poll_available_spec st conn bs c1 c2 hs
  exact ⟨h.2.2.2.2.2.2.2.2.1, h.2.2.2.2.2.2.2.1⟩

/-- C6 witness: the theorem applied at the connected state with the mixed
valid/invalid byte sequence 0x41 0xFF 0x42. -/
theorem C6_witness :
    connState.serial = some connConn ∧
    (poll_uart connState (.available [65, 255, 66]) false false).logText =
      connState.logText ++ String.mk (utf8DecodeReplace [65, 255, 66]) ∧
    utf8DecodeReplace [65, 255, 66] = ['A', repl, 'B'] := by
  have h := C6_decode_replace.1 connState connConn [65, 255, 66] false false rfl
  exact ⟨rfl, h.2, by decide⟩



/-- Running send_commands on a non-empty list: the job holding the remaining
queue and the floored interval is created, and after one scheduled tick per
remaining command plus one final tick, every command has been consumed in
order, the successful writes (first outcome for the immediate flush, then one
per tick) are on the transport, no dialog was shown, the timer has stopped
and on_complete has fired exactly once. -/
theorem send_commands_run (st : CState) (conn : SerialConn) (c0 : String)
    (rest : List String) (spacing : Int) (o1 : Bool) (outs : List Bool)
    (hs : st.serial = some conn) (hl : outs.length = rest.length + 1) :
    (send_commands st (c0 :: rest) spacing o1).2 =
      some { queue := rest, interval := max 50 spacing, timerActive := true } ∧
    (runTicks (send_commands st (c0 :: rest) spacing o1).1
        { queue := rest, interval := max 50 spacing, timerActive := true }
        outs).1.completeCount = st.completeCount + 1 ∧
    (runTicks (send_commands st (c0 :: rest) spacing o1).1
        { queue := rest, interval := max 50 spacing, timerActive := true }
        outs).1.written = st.written ++ sentOf (c0 :: rest) (o1 :: outs) ∧
    (runTicks (send_commands st (c0 :: rest) spacing o1).1
        { queue := rest, interval := max 50 spacing, timerActive := true }
        outs).1.alerts = st.alerts ∧
    (runTicks (send_commands st (c0 :: rest) spacing o1).1
        { queue := rest, interval := max 50 spacing, timerActive := true }
        outs).2.queue = [] ∧
    (runTicks (send_commands st (c0 :: rest) spacing o1).1
        { queue := rest, interval := max 50 spacing, timerActive := true }
        outs).2.timerActive = false := by
  cases o1 with
  | false =>
    have hid : send_commands st (c0 :: rest) spacing false =
        ({ st with
            written := st.written ++ [c0 ++ "\n"]
            port_logs := dictSet st.port_logs st.portSelected
              (dictGet st.port_logs st.portSelected "" ++ c0 ++ "\n")
            logText := st.logText ++ c0 ++ "\n" },
          some { queue := rest, interval := max 50 spacing, timerActive := true }) := by
      simp [send_commands, flushNext, hs]
    rw [hid]
    have key := runTicks_spec rest outs
      { st with
        written := st.written ++ [c0 ++ "\n"]
        port_logs := dictSet st.port_logs st.portSelected
          (dictGet st.port_logs st.portSelected "" ++ c0 ++ "\n")
        logText := st.logText ++ c0 ++ "\n" }
      { queue := rest, interval := max 50 spacing, timerActive := true }
      conn hs rfl rfl hl
    refine ⟨rfl, key.1, ?_, key.2.2.1, key.2.2.2.2.1, key.2.2.2.2.2.1⟩
    rw [key.2.1]
    show (st.written ++ [c0 ++ "\n"]) ++ sentOf rest outs =
      st.written ++ sentOf (c0 :: rest) (false :: outs)
    simp [sentOf, List.append_assoc]
  | true =>
    have hid : send_commands st (c0 :: rest) spacing true =
        (st, some { queue := rest, interval := max 50 spacing, timerActive := true }) := by
      simp [send_commands, flushNext, hs]
    rw [hid]
    have key := runTicks_spec rest outs st
      { queue := rest, interval := max 50 spacing, timerActive := true }
      conn hs rfl rfl hl
    refine ⟨rfl, key.1, ?_, key.2.2.1, key.2.2.2.2.1, key.2.2.2.2.2.1⟩
    rw [key.2.1]
    show st.written ++ sentOf rest outs = st.written ++ sentOf (c0 :: rest) (true :: outs)
    simp [sentOf]

/-- C7: send_many on a non-empty list delivers exactly one transport write per
item, in list order and each with its trailing newline, using a timer whose
interval is at least the 50 ms floor; after the final tick the timer has
stopped and on_complete has fired exactly once, and further ticks change
nothing.  On the empty list on_complete fires synchronously with zero sends
and no timer is created. -/
theorem C7_send_many :
    (∀ (st : CState) (conn : SerialConn) (cmds : List String) (spacing : Int),
      st.serial = some conn → cmds ≠ [] →
      (send_commands st cmds spacing false).2 =
        some { queue := cmds.tail, interval := max 50 spacing, timerActive := true } ∧
      (50 : Int) ≤ max 50 spacing ∧
      (runTicks (send_commands st cmds spacing false).1
          { queue := cmds.tail, interval := max 50 spacing, timerActive := true }
          (List.replicate cmds.length false)).1.written =
        st.written ++ cmds.map (fun c => c ++ "\n") ∧
      (runTicks (send_commands st cmds spacing false).1
          { queue := cmds.tail, interval := max 50 spacing, timerActive := true }
          (List.replicate cmds.length false)).1.completeCount = st.completeCount + 1 ∧
      (runTicks (send_commands st cmds spacing false).1
          { queue := cmds.tail, interval := max 50 spacing, timerActive := true }
          (List.replicate cmds.length false)).2.timerActive = false ∧
      (∀ extra, runTicks
          (runTicks (send_commands st cmds spacing false).1
            { queue := cmds.tail, interval := max 50 spacing, timerActive := true }
            (List.replicate cmds.length false)).1
          (runTicks (send_commands st cmds spacing false).1
            { queue := cmds.tail, interval := max 50 spacing, timerActive := true }
            (List.replicate cmds.length false)).2 extra =
        runTicks (send_commands st cmds spacing false).1
          { queue := cmds.tail, interval := max 50 spacing, timerActive := true }
          (List.replicate cmds.length false))) ∧
    (∀ (st : CState) (spacing : Int) (o : Bool),
      (send_commands st [] spacing o).1.completeCount = st.completeCount + 1 ∧
      (send_commands st [] spacing o).1.written = st.written ∧
      (send_commands st [] spacing o).2 = none) := by
  constructor
  · intro st conn cmds spacing hs hne
    rcases cmds with _ | ⟨c0, rest⟩
    · exact absurd rfl hne
    simp only [List.tail_cons]
    have hrun := send_commands_run st conn c0 rest spacing false
      (List.replicate (c0 :: rest).length false) hs (by simp)
    have hsent : sentOf (c0 :: rest) (false :: List.replicate (c0 :: rest).length false) =
        (c0 :: rest).map (fun c => c ++ "\n") := by
      refine sentOf_all_ok (c0 :: rest) (false :: List.replicate (c0 :: rest).length false)
        (fun o ho => ?_) (by simp)
      rcases List.mem_cons.1 ho with h | h
      · exact h
      · exact List.eq_of_mem_replicate h
    refine ⟨hrun.1, le_max_left 50 spacing, ?_, hrun.2.1, hrun.2.2.2.2.2,
      fun extra => ?_⟩
    · rw [hrun.2.2.1, hsent]
    · exact Prod.ext (congrArg Prod.fst (runTicks_inactive _ _ extra hrun.2.2.2.2.2))
        (congrArg Prod.snd (runTicks_inactive _ _ extra hrun.2.2.2.2.2))
  · intro st spacing o
    exact ⟨rfl, rfl, rfl⟩

/-- C7 witness: the theorem applied at the connected state with two commands
and a spacing below the floor. -/
theorem C7_witness :
    connState.serial = some connConn ∧ (["AT", "RST"] : List String) ≠ [] ∧
    (50 : Int) ≤ max 50 10 ∧
    (runTicks (send_commands connState ["AT", "RST"] 10 false).1
        { queue := ["RST"], interval := max 50 10, timerActive := true }
        (List.replicate 2 false)).1.written =
      connState.written ++ ["AT" ++ "\n", "RST" ++ "\n"] ∧
    (runTicks (send_commands connState ["AT", "RST"] 10 false).1
        { queue := ["RST"], interval := max 50 10, timerActive := true }
        (List.replicate 2 false)).1.completeCount = connState.completeCount + 1 := by
  have h := C7_send_many.1 connState connConn ["AT", "RST"] 10 rfl (by decide)
  exact ⟨rfl, by decide, h.2.1, h.2.2.1, h.2.2.2.1⟩

/-- C8: while disconnected, send is a complete no-op that cannot raise
(_on_send skips its whole guarded body: nothing is written, no buffer or
widget changes, no dialog), and a pending send_many tick just consumes the
head of its queue without any effect on the state, so an in-flight sequence
drains harmlessly. -/
theorem C8_send_disconnected_noop :
    (∀ (st : CState) (w : Option String), st.serial = none → on_send st w = st) ∧
    (∀ (st : CState) (job : SendJob) (w : Bool) (cmd : String) (rest : List String),
      st.serial = none → job.queue = cmd :: rest →
      flushNext st job w = (st, { job with queue := rest })) := by
  constructor
  · intro st w h
    by_cases hm : sendMsgOf st.inputText = ""
    · simp [on_send, hm]
    · simp [on_send, hm, h]
  · intro st job w cmd rest h hq
    simp [flushNext, hq, h]

/-- C8 witness: the theorem applied at a disconnected state with a non-empty
input box and a pending two-command queue. -/
theorem C8_witness :
    ({ initState with inputText := "hello" } : CState).serial = none ∧
    on_send { initState with inputText := "hello" } (some "err") =
      { initState with inputText := "hello" } ∧
    flushNext initState { queue := ["x", "y"], interval := 300, timerActive := true } false =
      (initState, { queue := ["y"], interval := 300, timerActive := true }) := by
  refine ⟨rfl, C8_send_disconnected_noop.1 _ (some "err") rfl, ?_⟩
  exact C8_send_disconnected_noop.2 initState
    { queue := ["x", "y"], interval := 300, timerActive := true } false "x" ["y"] rfl rfl

/-- C9: in every connection state, a send whose extracted message is empty
returns before touching anything: no write (not even a bare terminator), no
buffer, widget or dialog change. -/
theorem C9_empty_send_noop (st : CState) (w : Option String)
    (h : sendMsgOf st.inputText = "") : on_send st w = st := by
  simp [on_send, h]

/-- C9 witness: the theorem applied at the connected state with an input box
holding only line terminators. -/
theorem C9_witness :
    sendMsgOf ({ connState with inputText := "\x0d\n" } : CState).inputText = "" ∧
    on_send { connState with inputText := "\x0d\n" } none =
      { connState with inputText := "\x0d\n" } :=
  ⟨by decide, C9_empty_send_noop { connState with inputText := "\x0d\n" } none (by decide)⟩

/-- C10: during send_many, a raising transport write on any item is swallowed:
the failing item is still consumed, the remaining items are still attempted
on the following ticks, no dialog is surfaced, exactly the non-failing items
reach the transport, and on_complete still fires exactly once after the final
tick (and never again on further ticks), no matter which writes failed. -/
theorem C10_write_error_swallowed (st : CState) (conn : SerialConn) (c0 : String)
    (rest : List String) (spacing : Int) (o1 : Bool) (outs : List Bool)
    (hs : st.serial = some conn) (hl : outs.length = rest.length + 1) :
    (runTicks (send_commands st (c0 :: rest) spacing o1).1
        { queue := rest, interval := max 50 spacing, timerActive := true }
        outs).1.completeCount = st.completeCount + 1 ∧
    (runTicks (send_commands st (c0 :: rest) spacing o1).1
        { queue := rest, interval := max 50 spacing, timerActive := true }
        outs).2.queue = [] ∧
    (runTicks (send_commands st (c0 :: rest) spacing o1).1
        { queue := rest, interval := max 50 spacing, timerActive := true }
        outs).1.alerts = st.alerts ∧
    (runTicks (send_commands st (c0 :: rest) spacing o1).1
        { queue := rest, interval := max 50 spacing, timerActive := true }
        outs).1.written = st.written ++ sentOf (c0 :: rest) (o1 :: outs) ∧
    (∀ extra, runTicks
        (runTicks (send_commands st (c0 :: rest) spacing o1).1
          { queue := rest, interval := max 50 spacing, timerActive := true } outs).1
        (runTicks (send_commands st (c0 :: rest) spacing o1).1
          { queue := rest, interval := max 50 spacing, timerActive := true } outs).2 extra =
      runTicks (send_commands st (c0 :: rest) spacing o1).1
        { queue := rest, interval := max 50 spacing, timerActive := true } outs) := by
  have hrun := send_commands_run st conn c0 rest spacing o1 outs hs hl
  refine ⟨hrun.2.1, hrun.2.2.2.2.1, hrun.2.2.2.1, hrun.2.2.1, fun extra => ?_⟩
  exact Prod.ext (congrArg Prod.fst (runTicks_inactive _ _ extra hrun.2.2.2.2.2))
    (congrArg Prod.snd (runTicks_inactive _ _ extra hrun.2.2.2.2.2))

/-- C10 witness: the theorem applied at the connected state where the first
write raises and the second succeeds: both items are consumed, only the
second reaches the transport, and on_complete fires once. -/
theorem C10_witness :
    connState.serial = some connConn ∧
    (runTicks (send_commands connState ["bad", "ok"] 100 true).1
        { queue := ["ok"], interval := max 50 100, timerActive := true }
        [false, false]).1.completeCount = connState.completeCount + 1 ∧
    (runTicks (send_commands connState ["bad", "ok"] 100 true).1
        { queue := ["ok"], interval := max 50 100, timerActive := true }
        [false, false]).1.written =
      connState.written ++ sentOf ["bad", "ok"] [true, false, false] ∧
    sentOf ["bad", "ok"] [true, false, false] = ["ok" ++ "\n"] := by
  have h := C10_write_error_swallowed connState connConn "bad" ["ok"] 100 true
    [false, false] rfl (by decide)
  exact ⟨rfl, h.1, h.2.2.2.1, by decide⟩


end CommConsole
